import Mathlib

/-!
Verification of the TORCS self-driving-car client against its
natural-language specification.

The development shallowly embeds the Python sources:

* `msgParser.py`   — the wire-protocol codec (`MsgParser.parse`,
  `MsgParser.stringify`);
* `carState.py`    — the decoded vehicle state (`CarState.setFromMsg`);
* `carControl.py`  — the outgoing control command;
* `rule_driver.py` — the rule-based policy (gear formula and drive
  pipeline);
* `learning_driver.py` — the learning policy's auto-shift, restart hook
  and drive step;
* `model_driver.py`    — the recovery-aware policy's stuck/recovery
  state machine;
* `pyclient.py`    — the racing-tick step-ceiling branch.

Conventions: Python strings are `List Char`; Python `dict` (insertion
ordered, unique keys) is an association list together with the
insertion-or-overwrite operation `dictInsert`; Python `None` is `none`;
a raised exception is modelled by an `Option`-valued function returning
`none`.  Machine floats are modelled as exact rationals `ℚ` (no claim
below depends on rounding).
-/

/-- Whitespace characters recognised by Python's `str.split()` (ASCII). -/
def isSpace (c : Char) : Bool :=
  c == ' ' || c == '\t' || c == '\n' || c == '\r' || c == '\x0b' || c == '\x0c'

/-- Character is not an opening parenthesis (scan predicate of the parse loop). -/
def notOpen (c : Char) : Bool := c != '('

/-- Character is not a closing parenthesis (scan predicate of the parse loop). -/
def notClose (c : Char) : Bool := c != ')'

/-- Python `str.split()` with no argument: split on runs of whitespace,
dropping empty pieces.  A non-space character either extends the word in
front of it or, when followed by a space or the end, closes a word. -/
def splitWS : List Char → List (List Char)
  | [] => []
  | c :: cs =>
    if isSpace c then splitWS cs
    else
      match cs with
      | [] => [[c]]
      | c' :: _ =>
        if isSpace c' then [c] :: splitWS cs
        else
          match splitWS cs with
          | [] => [[c]]
          | w :: ws => (c :: w) :: ws

/-- Sensor dictionary: tag ↦ token sequence, in insertion order with unique
keys (the shape `MsgParser.parse` produces). -/
abbrev Sensors := List (List Char × List (List Char))

/-- Python `dict` assignment `d[k] = v`: overwrite in place if the key is
present, else append. -/
def dictInsert (d : Sensors) (k : List Char) (v : List (List Char)) : Sensors :=
  match d with
  | [] => [(k, v)]
  | (k', v') :: rest => if k' = k then (k', v) :: rest else (k', v') :: dictInsert rest k v

/-- Loop body of `MsgParser.parse` (msgParser.py lines 21–37): scan for `(`,
then for the next `)`; a group with fewer than two whitespace-separated
tokens is dropped; a `(` with no later `)` aborts the whole parse
(`return None`). -/
def parseAux (cs : List Char) (acc : Sensors) : Option Sensors :=
  match h : cs.dropWhile notOpen with
  | [] => some acc
  | _ :: afterOpen =>
    match h2 : afterOpen.dropWhile notClose with
    | [] => none
    | _ :: afterClose =>
      match splitWS (afterOpen.takeWhile notClose) with
      | t :: v1 :: vs => parseAux afterClose (dictInsert acc t (v1 :: vs))
      | _ => parseAux afterClose acc
termination_by cs.length
decreasing_by
  all_goals
    have ha : (cs.dropWhile notOpen).length ≤ cs.length :=
      (List.dropWhile_suffix notOpen).length_le
    rw [h] at ha
    have hb : (afterOpen.dropWhile notClose).length ≤ afterOpen.length :=
      (List.dropWhile_suffix notClose).length_le
    rw [h2] at hb
    simp only [List.length_cons] at ha hb
    omega

/-- `MsgParser.parse` (msgParser.py lines 17–37). -/
def MsgParser.parse (s : String) : Option Sensors := parseAux s.data []

/-- Python `' '.join`: interleave a single space between the pieces. -/
def joinSpace : List (List Char) → List Char
  | [] => []
  | [t] => t
  | t :: ts => t ++ ' ' :: joinSpace ts

/-- Python `str(x)` for an outgoing token that may be `None`. -/
def strOfTok : Option (List Char) → List Char
  | none => ['N', 'o', 'n', 'e']
  | some t => t

/-- Loop body of `MsgParser.stringify` (msgParser.py lines 39–47).  A value
that is `None` is skipped; a non-`None` value whose first element is `None`
is skipped; an empty list crashes on `value[0]` (IndexError), modelled by
`none`. -/
def stringifyEntries : List (List Char × Option (List (Option (List Char)))) → Option (List Char)
  | [] => some []
  | (_, none) :: rest => stringifyEntries rest
  | (_, some []) :: _ => none
  | (_, some (none :: _)) :: rest => stringifyEntries rest
  | (k, some (some t :: vs)) :: rest =>
      (stringifyEntries rest).map
        (fun m => '(' :: (k ++ ' ' :: joinSpace (List.map strOfTok (some t :: vs))) ++ ')' :: m)

/-- `MsgParser.stringify` on a dictionary all of whose values are plain
token lists (the round-trip setting of §4.1): wrap each token in `some`
and serialise. -/
def encodeMap (m : Sensors) : Option (List Char) :=
  stringifyEntries (m.map (fun kv => (kv.1, some (kv.2.map some))))

/-- Well-formed wire token (also used for tags): non-empty, and free of
whitespace and parentheses. -/
def wfTok (t : List Char) : Prop :=
  t ≠ [] ∧ ∀ c ∈ t, isSpace c = false ∧ c ≠ '(' ∧ c ≠ ')'

instance (t : List Char) : Decidable (wfTok t) := by
  unfold wfTok; infer_instance

/-- Well-formed dictionary entry for the round-trip law: well-formed tag,
non-empty value sequence, well-formed tokens. -/
def wfEntry (kv : List Char × List (List Char)) : Prop :=
  wfTok kv.1 ∧ kv.2 ≠ [] ∧ ∀ t ∈ kv.2, wfTok t

instance (kv : List Char × List (List Char)) : Decidable (wfEntry kv) := by
  unfold wfEntry; infer_instance

/-- An opening parenthesis occurs with no closing parenthesis anywhere
after it (the fatal shape of §4.1/§7). -/
def unmatchedOpen : List Char → Bool
  | [] => false
  | c :: cs => (c == '(' && !(cs.contains ')')) || unmatchedOpen cs

/-- All characters are decimal digits. -/
def allDigits (l : List Char) : Bool := l.all (fun c => c.isDigit)

/-- Value of a decimal digit string (most significant first). -/
def digitsToNat (l : List Char) : ℕ :=
  l.foldl (fun n c => 10 * n + (c.toNat - 48)) 0

/-- Python `float(token)` on the plain-decimal forms the simulator emits
(`[+-]?digits[.digits]`, at least one digit).  Exotic float syntax
(exponents, `inf`, `nan`) is out of scope; the value is the exact rational
(no claim depends on binary rounding).  `none` models `ValueError`. -/
def strToFloat (t : List Char) : Option ℚ :=
  let core : List Char → Option ℚ := fun u =>
    let ip := u.takeWhile (fun c => c != '.')
    match u.dropWhile (fun c => c != '.') with
    | [] => if allDigits ip && !ip.isEmpty then some (digitsToNat ip) else none
    | _ :: frac =>
      if allDigits ip && allDigits frac && !(ip.isEmpty && frac.isEmpty) then
        some ((digitsToNat ip : ℚ) + (digitsToNat frac : ℚ) / (10 : ℚ) ^ frac.length)
      else none
  match t with
  | '-' :: rest => (core rest).map Neg.neg
  | '+' :: rest => core rest
  | _ => core t

/-- Python `int(token)`: optional sign and decimal digits.  `none` models
`ValueError`. -/
def strToInt (t : List Char) : Option ℤ :=
  match t with
  | '-' :: rest => if allDigits rest && !rest.isEmpty then some (-(digitsToNat rest : ℤ)) else none
  | '+' :: rest => if allDigits rest && !rest.isEmpty then some ((digitsToNat rest : ℤ)) else none
  | _ => if allDigits t && !t.isEmpty then some ((digitsToNat t : ℤ)) else none

/-- Python `dict.get`: first binding of the key, if any. -/
def dictGet (d : Sensors) (k : List Char) : Option (List (List Char)) :=
  match d with
  | [] => none
  | (k', v) :: rest => if k' = k then some v else dictGet rest k

/-- `CarState` (carState.py): the decoded vehicle state.  Every telemetry
field is `Option`-valued; `none` is Python `None` (never observed /
absent from the last message). -/
structure CarState where
  sensors : Option Sensors := none
  angle : Option ℚ := none
  curLapTime : Option ℚ := none
  damage : Option ℚ := none
  distFromStart : Option ℚ := none
  distRaced : Option ℚ := none
  focus : Option (List ℚ) := none
  fuel : Option ℚ := none
  gear : Option ℤ := none
  lastLapTime : Option ℚ := none
  opponents : Option (List ℚ) := none
  racePos : Option ℤ := none
  rpm : Option ℚ := none
  speedX : Option ℚ := none
  speedY : Option ℚ := none
  speedZ : Option ℚ := none
  track : Option (List ℚ) := none
  trackPos : Option ℚ := none
  wheelSpinVel : Option (List ℚ) := none
  z : Option ℚ := none
  x : Option ℚ := none
  y : Option ℚ := none
deriving DecidableEq

/-- `CarState.getFloatD` (carState.py lines 99–101): `None` when the tag is
absent, else `float` of the first token.  Outer `none` models a raised
exception (`ValueError`; the `val[0]` IndexError case cannot arise from
`parse` output, whose value lists are never empty). -/
def CarState.getFloatD (sensors : Sensors) (name : List Char) : Option (Option ℚ) :=
  match dictGet sensors name with
  | none => some none
  | some [] => none
  | some (t :: _) => (strToFloat t).map some

/-- `CarState.getIntD` (carState.py lines 107–109). -/
def CarState.getIntD (sensors : Sensors) (name : List Char) : Option (Option ℤ) :=
  match dictGet sensors name with
  | none => some none
  | some [] => none
  | some (t :: _) => (strToInt t).map some

/-- `CarState.getFloatListD` (carState.py lines 103–105). -/
def CarState.getFloatListD (sensors : Sensors) (name : List Char) : Option (Option (List ℚ)) :=
  match dictGet sensors name with
  | none => some none
  | some vals => (vals.mapM strToFloat).map some

/-- First batch of `set*D` calls of `CarState.setFromMsg`
(carState.py lines 50–56): angle through fuel, in source order. -/
def CarState.setBatchA (sensors : Sensors) :
    Option (Option ℚ × Option ℚ × Option ℚ × Option ℚ × Option ℚ × Option (List ℚ) × Option ℚ) := do
  let angle ← CarState.getFloatD sensors "angle".data
  let curLapTime ← CarState.getFloatD sensors "curLapTime".data
  let damage ← CarState.getFloatD sensors "damage".data
  let distFromStart ← CarState.getFloatD sensors "distFromStart".data
  let distRaced ← CarState.getFloatD sensors "distRaced".data
  let focus ← CarState.getFloatListD sensors "focus".data
  let fuel ← CarState.getFloatD sensors "fuel".data
  pure (angle, curLapTime, damage, distFromStart, distRaced, focus, fuel)

/-- Second batch of `set*D` calls of `CarState.setFromMsg`
(carState.py lines 57–64): gear through speedY, in source order. -/
def CarState.setBatchB (sensors : Sensors) :
    Option (Option ℤ × Option ℚ × Option (List ℚ) × Option ℤ × Option ℚ × Option ℚ × Option ℚ) := do
  let gear ← CarState.getIntD sensors "gear".data
  let lastLapTime ← CarState.getFloatD sensors "lastLapTime".data
  let opponents ← CarState.getFloatListD sensors "opponents".data
  let racePos ← CarState.getIntD sensors "racePos".data
  let rpm ← CarState.getFloatD sensors "rpm".data
  let speedX ← CarState.getFloatD sensors "speedX".data
  let speedY ← CarState.getFloatD sensors "speedY".data
  pure (gear, lastLapTime, opponents, racePos, rpm, speedX, speedY)

/-- Third batch of `set*D` calls of `CarState.setFromMsg`
(carState.py lines 64–70): speedZ through y, in source order. -/
def CarState.setBatchC (sensors : Sensors) :
    Option (Option ℚ × Option (List ℚ) × Option ℚ × Option (List ℚ) × Option ℚ × Option ℚ × Option ℚ) := do
  let speedZ ← CarState.getFloatD sensors "speedZ".data
  let track ← CarState.getFloatListD sensors "track".data
  let trackPos ← CarState.getFloatD sensors "trackPos".data
  let wheelSpinVel ← CarState.getFloatListD sensors "wheelSpinVel".data
  let z ← CarState.getFloatD sensors "z".data
  let x ← CarState.getFloatD sensors "x".data
  let y ← CarState.getFloatD sensors "y".data
  pure (speedZ, track, trackPos, wheelSpinVel, z, x, y)

/-- `CarState.setFromMsg` (carState.py lines 47–70): parse the message and
re-set every field from the fresh sensor dictionary through its `set*D`
method (split in three batches above, preserving source order).  A failed
parse stores `None` and the first `set*D` call then raises (`None.get`),
modelled by `none`; a `set*D` conversion failure likewise raises. -/
def CarState.setFromMsg (_st : CarState) (msg : List Char) : Option CarState :=
  match parseAux msg [] with
  | none => none
  | some sensors =>
    match CarState.setBatchA sensors, CarState.setBatchB sensors, CarState.setBatchC sensors with
    | some (angle, curLapTime, damage, distFromStart, distRaced, focus, fuel),
      some (gear, lastLapTime, opponents, racePos, rpm, speedX, speedY),
      some (speedZ, track, trackPos, wheelSpinVel, z, x, y) =>
      some { sensors := some sensors, angle := angle, curLapTime := curLapTime,
             damage := damage, distFromStart := distFromStart, distRaced := distRaced,
             focus := focus, fuel := fuel, gear := gear, lastLapTime := lastLapTime,
             opponents := opponents, racePos := racePos, rpm := rpm, speedX := speedX,
             speedY := speedY, speedZ := speedZ, track := track, trackPos := trackPos,
             wheelSpinVel := wheelSpinVel, z := z, x := x, y := y }
    | _, _, _ => none

/-- `CarControl` (carControl.py): outgoing control fields with the
constructor's default values.  The wire rendering (`toMsg`) is determined
by these fields; the claims below speak of the fields. -/
structure CarControl where
  accel : ℚ := 0
  brake : ℚ := 0
  gear : ℤ := 1
  steer : ℚ := 0
  clutch : ℚ := 0
  focus : ℤ := 0
  meta : ℤ := 0
deriving DecidableEq

/-- `Driver.gear` core formula (rule_driver.py lines 74–84): threshold
up/down shifts between `MIN_GEAR = 1` and `MAX_GEAR = 6` with
`UPSHIFT_RPM = 7000`, `DOWNSHIFT_RPM = 3000`. -/
def Driver.gearFormula (rpm : ℚ) (gear : ℤ) : ℤ :=
  if rpm > 7000 ∧ gear < 6 then gear + 1
  else if rpm < 3000 ∧ gear > 1 then gear - 1
  else gear

/-- `Driver.steer` (rule_driver.py lines 67–72), with
`steer_lock = 0.785398`.  Reading a `None` field into arithmetic raises
(`TypeError`), modelled by `none`. -/
def Driver.steerStep (st : CarState) (c : CarControl) : Option CarControl := do
  let angle ← st.angle
  let trackPos ← st.trackPos
  pure { c with steer := (angle - trackPos * (1/2)) / (785398/1000000 : ℚ) }

/-- `Driver.gear` (rule_driver.py lines 74–84) acting on the control. -/
def Driver.gearStep (st : CarState) (c : CarControl) : Option CarControl := do
  let rpm ← st.rpm
  let gear ← st.gear
  pure { c with gear := Driver.gearFormula rpm gear }

/-- `Driver.speed` (rule_driver.py lines 86–138): curvature-sensitive
throttle with look-ahead over the first 12 track sensors and asymmetric
accelerator steps, clamped to [0, 1]. -/
def Driver.speedStep (st : CarState) (c : CarControl) : Option CarControl := do
  let speed ← st.speedX
  let accel := c.accel
  let steer := c.steer
  let track_pos ← st.trackPos
  let track_sensors := st.track
  let ts0 := (|steer| + |track_pos| * (3/10)) * (6/10)
  let (upcoming, ts1) :=
    match track_sensors with
    | some sensors =>
      if sensors.length ≥ 12 then
        match sensors.take 12 with
        | [] => ((1 : ℚ), ts0)
        | a :: rest =>
          let mn := rest.foldl min a
          if mn < 40 then
            (max (mn / 40) (8/10), ts0 + (1 - mn / 40) * (3/10))
          else (1, ts0)
      else (1, ts0)
    | none => (1, ts0)
  let target0 : ℚ := if speed < 200 then 1 * upcoming else 0
  let target : ℚ :=
    if ts1 > 4/10 then max (target0 * (1 - min ts1 (6/10))) (4/10) else target0
  let accel1 : ℚ :=
    if accel < target then accel + 3/10
    else if accel > target then accel - 2/10
    else accel
  pure { c with accel := max 0 (min 1 accel1) }

/-- `Driver.drive` (rule_driver.py lines 54–65): decode into the state,
then steer, gear and speed in order; any raised exception propagates to
the caller (`none`).  The returned control is what `control.toMsg()`
serialises. -/
def Driver.drive (st : CarState) (c : CarControl) (msg : List Char) :
    Option (CarState × CarControl) := do
  let st2 ← CarState.setFromMsg st msg
  let c1 ← Driver.steerStep st2 c
  let c2 ← Driver.gearStep st2 c1
  let c3 ← Driver.speedStep st2 c2
  pure (st2, c3)

/-- Per-gear upshift RPM table of the learning driver
(learning_driver.py lines 79–86). -/
def upshift_rpm (g : ℤ) : Option ℚ :=
  if g = 1 then some 7000 else if g = 2 then some 7000 else if g = 3 then some 7000
  else if g = 4 then some 7500 else if g = 5 then some 7500 else if g = 6 then some 7500
  else none

/-- Per-gear downshift RPM table of the learning driver
(learning_driver.py lines 87–93). -/
def downshift_rpm (g : ℤ) : Option ℚ :=
  if g = 2 then some 2000 else if g = 3 then some 2500 else if g = 4 then some 3000
  else if g = 5 then some 3500 else if g = 6 then some 4000
  else none

/-- `LearningDriver._auto_shift` (learning_driver.py lines 294–323) on the
current control gear and accelerator: reverse is kept unless moving
forward; upshift needs the per-gear threshold, gear < 6 and speed > 0;
downshift lowers the accelerator by 0.2 (floored at 0) when it is
positive. -/
def LearningDriver.auto_shift (gear : ℤ) (accel : ℚ) (rpm speedX : ℚ) : ℤ × ℚ :=
  if gear = -1 then
    (if speedX > 1/10 then 1 else -1, accel)
  else
    let g1 := match upshift_rpm gear with
      | some thr => if gear < 6 ∧ rpm > thr ∧ speedX > 0 then gear + 1 else gear
      | none => gear
    match downshift_rpm gear with
    | some thr =>
      if gear > 1 ∧ rpm < thr then
        (g1 - 1, if accel > 0 then max (accel - 2/10) 0 else accel)
      else (g1, accel)
    | none => (g1, accel)

/-- Mutable state of `LearningDriver` relevant to its temporal behaviour:
the three moving-average history windows, the previous RPM sample
(`_prev_rpm`), and the persistent control object. -/
structure LDState where
  histSpeedX : List ℚ := []
  histSpeedY : List ℚ := []
  histAngle : List ℚ := []
  prevRpm : ℚ := 0
  control : CarControl := {}
deriving DecidableEq

/-- A freshly constructed `LearningDriver`'s state
(learning_driver.py lines 59–96). -/
def LDState.fresh : LDState := {}

/-- `LearningDriver._update_history` for one feature: append, then drop the
oldest entry once the window (size 5) overflows. -/
def pushWindow (l : List ℚ) (v : ℚ) : List ℚ :=
  let l2 := l ++ [v]
  if l2.length > 5 then l2.tail else l2

/-- `LearningDriver._apply_safety_constraints` (learning_driver.py lines
274–292): clip to bounds and zero the accelerator under braking. -/
def LearningDriver.apply_safety (p : ℚ × ℚ × ℚ) : ℚ × ℚ × ℚ :=
  let s := max (-1) (min 1 p.1)
  let a := max 0 (min 1 p.2.1)
  let b := max 0 (min 1 p.2.2)
  (s, if b > 1/10 then 0 else a, b)

/-- `LearningDriver.drive` (learning_driver.py lines 325–375) after a
successful decode, on the numeric telemetry of the tick.  `preds` stands
for the three loaded models' raw predictions (external artifacts).  With
fewer than five history samples the basic-control branch zeroes
steer/accel/brake and only auto-shifts; otherwise `_prepare_features`
records the RPM sample into `_prev_rpm` and the constrained predictions
drive the control. -/
def LearningDriver.drive (st : LDState) (speedX speedY angle rpm : ℚ)
    (preds : ℚ × ℚ × ℚ) : LDState × CarControl :=
  let st1 := { st with histSpeedX := pushWindow st.histSpeedX speedX,
                       histSpeedY := pushWindow st.histSpeedY speedY,
                       histAngle := pushWindow st.histAngle angle }
  if st1.histSpeedX.length = 5 ∧ st1.histSpeedY.length = 5 ∧ st1.histAngle.length = 5 then
    let st2 := { st1 with prevRpm := rpm }
    let (s, a, b) := LearningDriver.apply_safety preds
    let c1 := { st2.control with steer := s, accel := a, brake := b }
    let (g, a2) := LearningDriver.auto_shift c1.gear c1.accel rpm speedX
    let c2 := { c1 with gear := g, accel := a2 }
    ({ st2 with control := c2 }, c2)
  else
    let c1 := { st1.control with steer := 0, accel := 0, brake := 0 }
    let (g, a) := LearningDriver.auto_shift c1.gear c1.accel rpm speedX
    let c2 := { c1 with gear := g, accel := a }
    ({ st1 with control := c2 }, c2)

/-- `LearningDriver.onRestart` (learning_driver.py lines 381–386): clear
the history windows — and nothing else. -/
def LearningDriver.onRestart (st : LDState) : LDState :=
  { st with histSpeedX := [], histSpeedY := [], histAngle := [] }

/-- `LearningDriver.drive` on the raw message: the whole body runs inside
`try`; when decoding raises (malformed message) the handler zeroes
steer/accel/brake and still returns a control message.  (The
missing-telemetry sub-case is routed through the same handler; its
partial history mutation before the exception is not tracked, as no claim
touches it.) -/
def LearningDriver.driveMsg (st : LDState) (cs : CarState) (msg : List Char)
    (preds : ℚ × ℚ × ℚ) : LDState × CarState × CarControl :=
  match CarState.setFromMsg cs msg with
  | none =>
    let c := { st.control with steer := 0, accel := 0, brake := 0 }
    ({ st with control := c }, cs, c)
  | some cs2 =>
    match cs2.speedX, cs2.speedY, cs2.angle, cs2.rpm with
    | some sx, some sy, some an, some rp =>
      let (st2, c) := LearningDriver.drive st sx sy an rp preds
      (st2, cs2, c)
    | _, _, _, _ =>
      let c := { st.control with steer := 0, accel := 0, brake := 0 }
      ({ st with control := c }, cs2, c)

/-- Outcome of one racing tick for a driver: either a control command is
sent back (its wire form is `control.toMsg()`), or an uncaught exception
ends the client. -/
inductive TickOutcome where
  | sent (c : CarControl)
  | crashed
deriving DecidableEq

/-- One racing tick of the session loop driving `rule_driver.Driver`
(pyclient.py lines 162–213): the driver's `drive` output is sent; an
exception inside `drive` is uncaught and kills the client. -/
def ruleTick (st : CarState) (c : CarControl) (buf : List Char) : TickOutcome :=
  match Driver.drive st c buf with
  | some (_, c2) => TickOutcome.sent c2
  | none => TickOutcome.crashed

/-- One racing tick of the session loop driving `LearningDriver`: its
`drive` never raises (everything is caught), so a command is always
sent. -/
def learningTick (st : LDState) (cs : CarState) (buf : List Char)
    (preds : ℚ × ℚ × ℚ) : TickOutcome :=
  TickOutcome.sent (LearningDriver.driveMsg st cs buf preds).2.2

/-- Mutable state of `ModelDriver` (model_driver.py lines 22–30) relevant
to the recovery state machine; times are wall-clock seconds. -/
structure MDState where
  use_model : Bool := false
  in_recovery : Bool := false
  recovery_start_time : ℚ := 0
  in_post_recovery : Bool := false
  post_recovery_start_time : ℚ := 0
  last_recovery_time : ℚ := 0
  session_start_time : ℚ := 0
deriving DecidableEq

/-- `ModelDriver.drive` (model_driver.py lines 56–117), fuel-indexed to
account for the self-call in the stuck-detection branch (which re-runs the
whole method within the same tick, hence at the same clock reading `t`).
`inner` is the wrapped base policy's `super().drive(msg)` control update
(its class is outside this repository; the spec's RecoveryAwarePolicy
wraps an arbitrary inner policy).  `pred` is the loaded model's clipped
prediction, `none` when no model is loaded.  `speed`/`angle` are the
decoded `speedX`/`angle` of the tick's message. -/
def ModelDriver.driveFuel (inner : CarControl → CarControl) :
    ℕ → MDState → ℚ → ℚ → ℚ → CarControl → Option (ℚ × ℚ × ℚ) →
    Option (MDState × CarControl)
  | 0, _, _, _, _, _, _ => none
  | n + 1, st, t, speed, angle, ctrl0, pred =>
    let ctrl := inner ctrl0
    if st.use_model then
      if st.in_post_recovery ∧ t - st.post_recovery_start_time < 4 then
        some (st, { ctrl with gear := 1, accel := 1/2, brake := 0 })
      else
        let st1 := if st.in_post_recovery then { st with in_post_recovery := false } else st
        if st1.in_recovery then
          if t - st1.recovery_start_time > 3 then
            some ({ st1 with in_recovery := false, last_recovery_time := t,
                             in_post_recovery := true, post_recovery_start_time := t },
                  { ctrl with gear := 1, accel := 1/10, brake := 0, steer := 0 })
          else
            let sv : ℚ :=
              if angle > 1/2 then -(1/2 : ℚ) else if angle < -(1/2 : ℚ) then 1/2 else 0
            some (st1, { ctrl with gear := -1, accel := 3/10, brake := 0, steer := sv })
        else
          if t - st1.session_start_time > 5 ∧ speed < 3/10 ∧ t - st1.last_recovery_time > 5 then
            ModelDriver.driveFuel inner n
              { st1 with in_recovery := true, recovery_start_time := t } t speed angle ctrl pred
          else
            match pred with
            | some (s, a, b) => some (st1, { ctrl with steer := s, accel := a, brake := b })
            | none => some (st1, ctrl)
    else
      some (st, ctrl)

/-- `ModelDriver.drive` proper: fuel 2 covers the one self-call the code
can make per tick. -/
def ModelDriver.drive (inner : CarControl → CarControl) (st : MDState)
    (t speed angle : ℚ) (ctrl : CarControl) (pred : Option (ℚ × ℚ × ℚ)) :
    Option (MDState × CarControl) :=
  ModelDriver.driveFuel inner 2 st t speed angle ctrl pred

/-- Step-ceiling branch of the racing loop (pyclient.py lines 162–213):
`currentStep` (already incremented for this tick) different from
`maxSteps` runs the policy; equal sends the literal abandon message
without invoking the policy. -/
def racingTickMsg (currentStep maxSteps : ℕ) (driveFn : List Char → List Char)
    (buf : List Char) : List Char :=
  if currentStep ≠ maxSteps then driveFn buf else "(meta 1)".data

/-- `takeWhile` passes over a prefix it accepts wholesale. -/
theorem takeWhile_append_all {α : Type} (p : α → Bool) (w rest : List α)
    (h : ∀ c ∈ w, p c = true) :
    (w ++ rest).takeWhile p = w ++ rest.takeWhile p := by
  induction w with
  | nil => simp
  | cons a w ih =>
    have ha : p a = true := h a (by simp)
    simp only [List.cons_append, List.takeWhile_cons_of_pos ha]
    rw [ih (fun c hc => h c (by simp [hc]))]

/-- `dropWhile` discards a prefix it accepts wholesale. -/
theorem dropWhile_append_all {α : Type} (p : α → Bool) (w rest : List α)
    (h : ∀ c ∈ w, p c = true) :
    (w ++ rest).dropWhile p = rest.dropWhile p := by
  induction w with
  | nil => simp
  | cons a w ih =>
    have ha : p a = true := h a (by simp)
    simp only [List.cons_append, List.dropWhile_cons_of_pos ha]
    exact ih (fun c hc => h c (by simp [hc]))

/-- Unfolding of `splitWS` at a non-space head character. -/
theorem splitWS_cons_nonspace (a : Char) (cs : List Char) (ha : isSpace a = false) :
    splitWS (a :: cs) =
      match cs with
      | [] => [[a]]
      | c' :: _ =>
        if isSpace c' then [a] :: splitWS cs
        else
          match splitWS cs with
          | [] => [[a]]
          | w :: ws => (a :: w) :: ws := by
  rw [splitWS.eq_def]
  simp [ha]

/-- A space-free non-empty word followed by end-of-input or a space is
split off as one piece. -/
theorem splitWS_word (w rest : List Char) (hne : w ≠ [])
    (hw : ∀ c ∈ w, isSpace c = false)
    (hr : rest = [] ∨ ∃ c cs, rest = c :: cs ∧ isSpace c = true) :
    splitWS (w ++ rest) = w :: splitWS rest := by
  induction w with
  | nil => exact absurd rfl hne
  | cons a w ih =>
    have ha : isSpace a = false := hw a (by simp)
    match w with
    | [] =>
      rcases hr with h | ⟨c, cs, rfl, hc⟩
      · subst h; rw [List.append_nil, splitWS_cons_nonspace a [] ha]; rfl
      · rw [List.singleton_append, splitWS_cons_nonspace a _ ha]
        simp [hc]
    | b :: w' =>
      have hb : isSpace b = false := hw b (by simp)
      have ihw : splitWS ((b :: w') ++ rest) = (b :: w') :: splitWS rest :=
        ih (by simp) (fun c hc => hw c (by simp [List.mem_cons] at hc ⊢; tauto))
      rw [List.cons_append] at ihw
      rw [List.cons_append, splitWS_cons_nonspace a _ ha]
      simp only [List.cons_append]
      rw [ihw]
      simp [hb]

/-- Skipping a leading space. -/
theorem splitWS_space (c : Char) (cs : List Char) (h : isSpace c = true) :
    splitWS (c :: cs) = splitWS cs := by
  rw [splitWS.eq_def]; simp [h]

/-- Unfolding of `joinSpace` for a list of at least two tokens. -/
theorem joinSpace_cons_cons (t u : List Char) (ts : List (List Char)) :
    joinSpace (t :: u :: ts) = t ++ ' ' :: joinSpace (u :: ts) := rfl

/-- Every character of a joined token list is a space or a character of
one of the tokens. -/
theorem mem_joinSpace (ts : List (List Char)) (c : Char) (h : c ∈ joinSpace ts) :
    c = ' ' ∨ ∃ t ∈ ts, c ∈ t := by
  induction ts with
  | nil => simp [joinSpace] at h
  | cons t ts ih =>
    match ts with
    | [] => exact Or.inr ⟨t, by simp, by simpa [joinSpace] using h⟩
    | t' :: ts' =>
      rw [joinSpace_cons_cons] at h
      rcases List.mem_append.mp h with h1 | h2
      · exact Or.inr ⟨t, by simp, h1⟩
      · rcases List.mem_cons.mp h2 with rfl | h3
        · exact Or.inl rfl
        · rcases ih h3 with h4 | ⟨u, hu, hcu⟩
          · exact Or.inl h4
          · exact Or.inr ⟨u, by simp [hu], hcu⟩

/-- `str.split` inverts `' '.join` on well-formed tokens. -/
theorem splitWS_joinSpace (ts : List (List Char))
    (h : ∀ t ∈ ts, t ≠ [] ∧ ∀ c ∈ t, isSpace c = false) :
    splitWS (joinSpace ts) = ts := by
  induction ts with
  | nil => rfl
  | cons t ts ih =>
    match ts with
    | [] =>
      have h3 := splitWS_word t [] (h t (by simp)).1 (h t (by simp)).2 (Or.inl rfl)
      rw [List.append_nil] at h3
      simpa [joinSpace] using h3
    | t' :: ts' =>
      rw [joinSpace_cons_cons]
      rw [splitWS_word t (' ' :: joinSpace (t' :: ts')) (h t (by simp)).1
            (h t (by simp)).2 (Or.inr ⟨' ', _, rfl, rfl⟩)]
      rw [splitWS_space ' ' _ rfl]
      rw [ih (fun u hu => h u (by simp [hu]))]

/-- `parseAux` on exhausted input returns the accumulated dictionary. -/
theorem parseAux_nil (acc : Sensors) : parseAux [] acc = some acc := by
  rw [parseAux.eq_def]
  rfl

/-- Input containing no opening parenthesis parses to the accumulator
(the scan finds nothing). -/
theorem parseAux_no_open (cs : List Char) (acc : Sensors) (h : ∀ c ∈ cs, c ≠ '(') :
    parseAux cs acc = some acc := by
  have hd : cs.dropWhile notOpen = [] :=
    List.dropWhile_eq_nil_iff.mpr (fun c hc => by simp [notOpen, h c hc])
  rw [parseAux.eq_def]
  split
  · rfl
  · next a l heq => rw [hd] at heq; cases heq

/-- If the scan locates an opening parenthesis whose tail holds no closing
parenthesis, the whole parse aborts with `None`. -/
theorem parseAux_unterminated (cs : List Char) (acc : Sensors) (op : Char)
    (afterOpen : List Char) (h : cs.dropWhile notOpen = op :: afterOpen)
    (h2 : afterOpen.dropWhile notClose = []) :
    parseAux cs acc = none := by
  rw [parseAux.eq_def]
  split
  · next heq => rw [h] at heq; cases heq
  · next a l heq =>
    rw [h] at heq
    injection heq with e1 e2
    subst e2
    split
    · rfl
    · next b l2 heq2 => rw [h2] at heq2; cases heq2

/-- One iteration of the parse loop over a complete group `(grp)` whose body
holds no closing parenthesis: split the body, drop it if it has fewer than
two tokens, else record tag and values; then continue after the `)`. -/
theorem parseAux_group (grp rest : List Char) (acc : Sensors)
    (hg : ∀ c ∈ grp, c ≠ ')') :
    parseAux ('(' :: (grp ++ ')' :: rest)) acc =
      match splitWS grp with
      | t :: v1 :: vs => parseAux rest (dictInsert acc t (v1 :: vs))
      | _ => parseAux rest acc := by
  have hgall : ∀ c ∈ grp, notClose c = true := fun c hc => by simp [notClose, hg c hc]
  have h1 : ('(' :: (grp ++ ')' :: rest)).dropWhile notOpen = '(' :: (grp ++ ')' :: rest) := by
    rw [List.dropWhile_cons_of_neg]
    simp [notOpen]
  have h2 : (grp ++ ')' :: rest).dropWhile notClose = ')' :: rest := by
    rw [dropWhile_append_all _ _ _ hgall, List.dropWhile_cons_of_neg]
    simp [notClose]
  have h3 : (grp ++ ')' :: rest).takeWhile notClose = grp := by
    rw [takeWhile_append_all _ _ _ hgall, List.takeWhile_cons_of_neg]
    · simp
    · simp [notClose]
  rw [parseAux.eq_def]
  split
  · next heq => rw [h1] at heq; cases heq
  · next a l heq =>
    rw [h1] at heq
    injection heq with e1 e2
    subst e2
    split
    · next heq2 => rw [h2] at heq2; cases heq2
    · next b l2 heq2 =>
      rw [h2] at heq2
      injection heq2 with f1 f2
      subst f2
      rw [h3]

/-- Python `dict` assignment of a fresh key appends it at the end. -/
theorem dictInsert_not_mem (d : Sensors) (k : List Char) (v : List (List Char))
    (h : k ∉ d.map Prod.fst) :
    dictInsert d k v = d ++ [(k, v)] := by
  induction d with
  | nil => rfl
  | cons kv d ih =>
    rw [dictInsert]
    have hk : kv.1 ≠ k := by
      intro e; exact h (by simp [← e])
    simp only [hk, if_false]
    rw [ih (fun hm => h (by simp [hm]))]
    simp

/-- A closing parenthesis bars everything before it from being an
unterminated opening parenthesis. -/
theorem unmatchedOpen_append_close (xs ys : List Char) :
    unmatchedOpen (xs ++ ')' :: ys) = unmatchedOpen ys := by
  induction xs with
  | nil =>
    have hne : (')' == '(') = false := by decide
    simp [unmatchedOpen, hne]
  | cons c xs ih =>
    rw [List.cons_append, unmatchedOpen]
    have hc : ((xs ++ ')' :: ys).contains ')') = true := by
      simp [List.contains, List.elem_eq_mem]
    rw [hc, ih]
    simp

/-- A string with no opening parenthesis has no unmatched one. -/
theorem unmatchedOpen_no_open (cs : List Char) (h : ∀ c ∈ cs, c ≠ '(') :
    unmatchedOpen cs = false := by
  induction cs with
  | nil => rfl
  | cons c cs ih =>
    rw [unmatchedOpen]
    have hc : (c == '(') = false := by simp [h c (by simp)]
    rw [hc, ih (fun x hx => h x (by simp [hx]))]
    simp

/-- The head the `dropWhile` scan stops at fails the predicate. -/
theorem dropWhile_head_false {α : Type} {p : α → Bool} {l : List α} {a : α} {as : List α}
    (h : l.dropWhile p = a :: as) : p a = false := by
  induction l with
  | nil => cases h
  | cons c l ih =>
    rw [List.dropWhile_cons] at h
    by_cases hc : p c = true
    · rw [if_pos hc] at h; exact ih h
    · rw [if_neg hc] at h
      injection h with e1 e2
      subst e1
      exact Bool.not_eq_true _ |>.mp hc

/-- One full iteration of the parse loop, phrased through the scan results. -/
theorem parseAux_step (cs : List Char) (acc : Sensors) (op : Char) (afterOpen : List Char)
    (cl : Char) (afterClose : List Char)
    (h : cs.dropWhile notOpen = op :: afterOpen)
    (h2 : afterOpen.dropWhile notClose = cl :: afterClose) :
    parseAux cs acc =
      match splitWS (afterOpen.takeWhile notClose) with
      | t :: v1 :: vs => parseAux afterClose (dictInsert acc t (v1 :: vs))
      | _ => parseAux afterClose acc := by
  rw [parseAux.eq_def]
  split
  · next heq => rw [h] at heq; cases heq
  · next a l heq =>
    rw [h] at heq
    injection heq with e1 e2
    subst e2
    split
    · next heq2 => rw [h2] at heq2; cases heq2
    · next b l2 heq2 =>
      rw [h2] at heq2
      injection heq2 with f1 f2
      subst f2
      rfl

/-- Any message holding an opening parenthesis with no closing parenthesis
after it makes the whole parse return `None`, whatever was already
accumulated (fuel-indexed induction). -/
theorem parseAux_unmatched_bounded :
    ∀ (n : ℕ) (cs : List Char), cs.length ≤ n → ∀ acc : Sensors,
      unmatchedOpen cs = true → parseAux cs acc = none := by
  intro n
  induction n with
  | zero =>
    intro cs hlen acc h
    have : cs = [] := List.length_eq_zero.mp (Nat.le_zero.mp hlen)
    subst this
    cases h
  | succ n ih =>
    intro cs hlen acc h
    cases hd : cs.dropWhile notOpen with
    | nil =>
      have hno : ∀ c ∈ cs, c ≠ '(' := by
        intro c hc
        have := List.dropWhile_eq_nil_iff.mp hd c hc
        simpa [notOpen] using this
      rw [unmatchedOpen_no_open cs hno] at h
      cases h
    | cons op afterOpen =>
      cases hd2 : afterOpen.dropWhile notClose with
      | nil => exact parseAux_unterminated cs acc op afterOpen hd hd2
      | cons cl afterClose =>
        have hcl : cl = ')' := by
          have := dropWhile_head_false hd2
          simpa [notClose] using this
        subst hcl
        have hcs : cs = cs.takeWhile notOpen ++ op :: afterOpen := by
          rw [← hd, List.takeWhile_append_dropWhile]
        have hao : afterOpen = afterOpen.takeWhile notClose ++ ')' :: afterClose := by
          rw [← hd2, List.takeWhile_append_dropWhile]
        have hu : unmatchedOpen afterClose = true := by
          have hx : cs = (cs.takeWhile notOpen ++ op :: afterOpen.takeWhile notClose)
              ++ ')' :: afterClose := by
            conv_lhs => rw [hcs]
            conv_lhs => rw [hao]
            simp
          rw [hx, unmatchedOpen_append_close] at h
          exact h
        have hlen2 : afterClose.length ≤ n := by
          have e1 := congrArg List.length hcs
          have e2 := congrArg List.length hao
          simp only [List.length_append, List.length_cons] at e1 e2
          omega
        rw [parseAux_step cs acc op afterOpen ')' afterClose hd hd2]
        split
        · exact ih afterClose hlen2 _ hu
        · exact ih afterClose hlen2 _ hu

/-- Message-level fatality: an unmatched opening parenthesis anywhere makes
`MsgParser.parse` return `None` with no partial result. -/
theorem parseAux_unmatched (cs : List Char) (acc : Sensors)
    (h : unmatchedOpen cs = true) : parseAux cs acc = none :=
  parseAux_unmatched_bounded cs.length cs le_rfl acc h

/-- Serialising one entry with a non-empty value list prepends its group. -/
theorem encodeMap_cons (k : List Char) (v : List (List Char)) (m : Sensors) (hv : v ≠ []) :
    encodeMap ((k, v) :: m) =
      (encodeMap m).map (fun s => '(' :: (k ++ ' ' :: joinSpace v) ++ ')' :: s) := by
  match v with
  | [] => exact absurd rfl hv
  | t :: ts =>
    show stringifyEntries ((k, some (List.map some (t :: ts))) :: _) = _
    rw [List.map_cons]
    rw [stringifyEntries]
    have hj : List.map strOfTok (some t :: List.map some ts) = t :: ts := by
      rw [List.map_cons, List.map_map]
      have : strOfTok ∘ some = id := by
        funext x; rfl
      rw [this, List.map_id]
      rfl
    rw [hj]
    rfl

/-- Decoding the serialisation of a well-formed mapping onto an accumulator
with disjoint keys appends the mapping: one group is peeled per entry. -/
theorem parseAux_encodeMap (m : Sensors) :
    ∀ acc : Sensors,
      (m.map Prod.fst).Nodup →
      (∀ k ∈ m.map Prod.fst, k ∉ acc.map Prod.fst) →
      (∀ kv ∈ m, wfEntry kv) →
      ∃ s, encodeMap m = some s ∧ parseAux s acc = some (acc ++ m) := by
  induction m with
  | nil =>
    intro acc _ _ _
    exact ⟨[], rfl, by rw [parseAux_nil]; simp⟩
  | cons kv m ih =>
    obtain ⟨k, v⟩ := kv
    intro acc hnd hdisj hwf
    have hwfk : wfTok k := (hwf (k, v) (by simp)).1
    have hvne : v ≠ [] := (hwf (k, v) (by simp)).2.1
    have hwfv : ∀ t ∈ v, wfTok t := (hwf (k, v) (by simp)).2.2
    have hknotm : k ∉ m.map Prod.fst := by
      rw [List.map_cons, List.nodup_cons] at hnd
      exact hnd.1
    have hnd' : (m.map Prod.fst).Nodup := by
      rw [List.map_cons, List.nodup_cons] at hnd
      exact hnd.2
    have hdisj' : ∀ k' ∈ m.map Prod.fst, k' ∉ (acc ++ [(k, v)]).map Prod.fst := by
      intro k' hk'
      simp only [List.map_append, List.mem_append]
      rintro (hin | hin)
      · exact hdisj k' (by simp [hk']) hin
      · simp only [List.map_cons, List.map_nil, List.mem_singleton] at hin
        exact hknotm (hin ▸ hk')
    obtain ⟨s, hs, hps⟩ := ih (acc ++ [(k, v)]) hnd' hdisj' (fun kv h => hwf kv (by simp [h]))
    refine ⟨'(' :: (k ++ ' ' :: joinSpace v) ++ ')' :: s, ?_, ?_⟩
    · rw [encodeMap_cons k v m hvne, hs]
      rfl
    · have hnoclose : ∀ c ∈ k ++ ' ' :: joinSpace v, c ≠ ')' := by
        intro c hc
        rcases List.mem_append.mp hc with h1 | h2
        · exact (hwfk.2 c h1).2.2
        · rcases List.mem_cons.mp h2 with rfl | h3
          · decide
          · rcases mem_joinSpace v c h3 with rfl | ⟨t, ht, hct⟩
            · decide
            · exact ((hwfv t ht).2 c hct).2.2
      rw [List.cons_append, parseAux_group _ _ _ hnoclose]
      have hsplit : splitWS (k ++ ' ' :: joinSpace v) = k :: v := by
        rw [splitWS_word k _ hwfk.1 (fun c hc => (hwfk.2 c hc).1) (Or.inr ⟨' ', _, rfl, rfl⟩)]
        rw [splitWS_space ' ' _ rfl]
        rw [splitWS_joinSpace v (fun t ht => ⟨(hwfv t ht).1, fun c hc => ((hwfv t ht).2 c hc).1⟩)]
      rw [hsplit]
      obtain ⟨v1, vs, rfl⟩ : ∃ v1 vs, v = v1 :: vs := by
        cases v with
        | nil => exact absurd rfl hvne
        | cons v1 vs => exact ⟨v1, vs, rfl⟩
      show parseAux s (dictInsert acc k (v1 :: vs)) = _
      have hkacc : k ∉ acc.map Prod.fst := hdisj k (by simp)
      rw [dictInsert_not_mem acc k _ hkacc, hps]
      simp

/-- Round trip on the empty accumulator: decoding the encoding of a
well-formed mapping (distinct non-empty tags, non-empty token sequences,
tokens without parentheses or whitespace) restores it exactly. -/
theorem parse_encodeMap (m : Sensors)
    (hnd : (m.map Prod.fst).Nodup) (hwf : ∀ kv ∈ m, wfEntry kv) :
    ∃ s, encodeMap m = some s ∧ parseAux s [] = some m := by
  obtain ⟨s, h1, h2⟩ := parseAux_encodeMap m [] hnd (by simp) hwf
  exact ⟨s, h1, by simpa using h2⟩

/-- C1 (corrected): decode∘encode is the identity on mappings with distinct
well-formed tags and non-empty sequences of well-formed tokens, where
well-formed additionally requires tokens and tags to be non-empty and free
of whitespace — the claim's own preconditions (no parentheses, no empty
token) do not suffice. -/
theorem claim_C1_roundtrip (m : Sensors)
    (hnd : (m.map Prod.fst).Nodup) (hwf : ∀ kv ∈ m, wfEntry kv) :
    ∃ s, encodeMap m = some s ∧ parseAux s [] = some m :=
  parse_encodeMap m hnd hwf

/-- C1 witness: the round trip at a concrete two-tag mapping. -/
theorem claim_C1_roundtrip_witness :
    ∃ s, encodeMap [("angle".data, ["1.0".data]), ("gear".data, ["3".data])] = some s ∧
      parseAux s [] = some [("angle".data, ["1.0".data]), ("gear".data, ["3".data])] :=
  claim_C1_roundtrip [("angle".data, ["1.0".data]), ("gear".data, ["3".data])]
    (by decide) (by decide)

/-- C1 counterexample: the token `"x y"` meets every precondition of the
claim (non-empty, no parenthesis), yet the round trip splits it in two, so
`decode (encode m) ≠ m`. -/
theorem claim_C1_counterexample :
    ("x y".data ≠ [] ∧ ∀ c ∈ "x y".data, c ≠ '(' ∧ c ≠ ')') ∧
    encodeMap [("a".data, ["x y".data])] = some "(a x y)".data ∧
    parseAux "(a x y)".data [] = some [("a".data, ["x".data, "y".data])] ∧
    some [("a".data, ["x".data, "y".data])] ≠ some [("a".data, ["x y".data])] := by
  refine ⟨by decide, by decide, ?_, by decide⟩
  show parseAux ('(' :: ("a x y".data ++ ')' :: [])) [] = _
  rw [parseAux_group _ _ _ (by decide)]
  rw [show splitWS "a x y".data = ["a".data, "x".data, "y".data] from by decide]
  show parseAux [] (dictInsert [] "a".data ("x".data :: ["y".data])) = _
  rw [parseAux_nil]
  decide

/-- C2 (confirmed): an opening parenthesis with no close after it makes the
whole decode return `None` (no partial result); a parenthesis group with
fewer than two tokens is dropped and decoding continues with the other
tags intact; in particular `"(angle 1.0"` is fatal while `"(angle)"` only
loses the one tag. -/
theorem claim_C2_malformed :
    (∀ s : String, unmatchedOpen s.data = true → MsgParser.parse s = none) ∧
    (∀ (rest : List Char) (acc : Sensors),
        parseAux ("(angle)".data ++ rest) acc = parseAux rest acc) ∧
    MsgParser.parse "(angle)" = some [] ∧
    MsgParser.parse "(angle)(gear 3)" = some [("gear".data, ["3".data])] := by
  have hgroup : ∀ (rest : List Char) (acc : Sensors),
      parseAux ("(angle)".data ++ rest) acc = parseAux rest acc := by
    intro rest acc
    show parseAux ('(' :: ("angle".data ++ ')' :: rest)) acc = parseAux rest acc
    rw [parseAux_group _ _ _ (by decide)]
    rw [show splitWS "angle".data = ["angle".data] from by decide]
  refine ⟨fun s h => parseAux_unmatched s.data [] h, hgroup, ?_, ?_⟩
  · show parseAux ("(angle)".data ++ []) [] = some []
    rw [hgroup, parseAux_nil]
  · show parseAux ("(angle)".data ++ "(gear 3)".data) [] = _
    rw [hgroup]
    show parseAux ('(' :: ("gear 3".data ++ ')' :: [])) [] = _
    rw [parseAux_group _ _ _ (by decide)]
    rw [show splitWS "gear 3".data = ["gear".data, "3".data] from by decide]
    show parseAux [] (dictInsert [] "gear".data ("3".data :: [])) = _
    rw [parseAux_nil]
    decide

/-- C2 witness: the unterminated input of the claim decodes to `None`. -/
theorem claim_C2_malformed_witness :
    MsgParser.parse "(angle 1.0" = none :=
  claim_C2_malformed.1 "(angle 1.0" (by decide)

/-- C8 (corrected): a tag whose value is `None`, or whose value's first
element is `None`, is skipped and serialisation continues with the
remaining tags; but an *empty* (non-`None`) value sequence is not skipped —
it makes `stringify` fail on `value[0]`. -/
theorem claim_C8_stringify_skip :
    (∀ (k : List Char) (rest : List (List Char × Option (List (Option (List Char))))),
        stringifyEntries ((k, none) :: rest) = stringifyEntries rest) ∧
    (∀ (k : List Char) (vs : List (Option (List Char)))
        (rest : List (List Char × Option (List (Option (List Char))))),
        stringifyEntries ((k, some (none :: vs)) :: rest) = stringifyEntries rest) ∧
    (∀ (k : List Char) (rest : List (List Char × Option (List (Option (List Char))))),
        stringifyEntries ((k, some []) :: rest) = none) :=
  ⟨fun _ _ => rfl, fun _ _ _ => rfl, fun _ _ => rfl⟩

/-- C8 counterexample: an empty value sequence crashes `stringify` (result
`None`) instead of being skipped (which would give the empty message). -/
theorem claim_C8_counterexample :
    stringifyEntries [("a".data, some [])] = none ∧
    stringifyEntries ([] : List (List Char × Option (List (Option (List Char))))) = some [] ∧
    stringifyEntries [("a".data, some [])] ≠
      stringifyEntries ([] : List (List Char × Option (List (Option (List Char))))) := by
  refine ⟨rfl, rfl, by decide⟩

/-- C5 (corrected): threshold gear shifting.  The rule formula upshifts on
RPM > 7000 below gear 6, downshifts on RPM < 3000 above gear 1, and is
otherwise the identity; the learning driver's auto-shift realises the
claim's concrete examples (upshift needs forward speed) with the
accelerator reduced by up to 0.2, floored at 0, on downshift.  Neither
formula ever moves a non-reverse gear into reverse — but a gear already in
reverse can be kept (whence the correction). -/
theorem claim_C5_gear :
    (∀ (rpm : ℚ) (g : ℤ), rpm > 7000 → g < 6 → Driver.gearFormula rpm g = g + 1) ∧
    (∀ (rpm : ℚ) (g : ℤ), rpm < 3000 → g > 1 → Driver.gearFormula rpm g = g - 1) ∧
    (∀ (rpm : ℚ) (g : ℤ), ¬(rpm > 7000 ∧ g < 6) → ¬(rpm < 3000 ∧ g > 1) →
        Driver.gearFormula rpm g = g) ∧
    Driver.gearFormula 7200 3 = 4 ∧
    Driver.gearFormula 2400 3 = 2 ∧
    (∀ (accel speedX : ℚ), speedX > 0 →
        (LearningDriver.auto_shift 3 accel 7200 speedX).1 = 4) ∧
    (∀ (accel speedX : ℚ), 0 ≤ accel →
        LearningDriver.auto_shift 3 accel 2400 speedX = (2, max (accel - 2/10) 0)) ∧
    (∀ (rpm : ℚ) (g : ℤ), 0 ≤ g → Driver.gearFormula rpm g ≠ -1) ∧
    (∀ (rpm speedX accel : ℚ) (g : ℤ), 0 ≤ g →
        (LearningDriver.auto_shift g accel rpm speedX).1 ≠ -1) := by
  refine ⟨?_, ?_, ?_, by decide, by decide, ?_, ?_, ?_, ?_⟩
  · intro rpm g h1 h2
    rw [Driver.gearFormula, if_pos ⟨h1, h2⟩]
  · intro rpm g h1 h2
    have hno : ¬(rpm > 7000 ∧ g < 6) := fun hc => absurd h1 (by linarith [hc.1])
    rw [Driver.gearFormula, if_neg hno, if_pos ⟨h1, h2⟩]
  · intro rpm g h1 h2
    rw [Driver.gearFormula, if_neg h1, if_neg h2]
  · intro accel speedX hs
    rw [LearningDriver.auto_shift, if_neg (by decide : ¬(3 : ℤ) = -1)]
    rw [show upshift_rpm 3 = some 7000 from by decide,
        show downshift_rpm 3 = some 2500 from by decide]
    dsimp only
    rw [if_neg (fun hcon => absurd hcon.2 (by norm_num) :
          ¬((3 : ℤ) > 1 ∧ (7200 : ℚ) < 2500))]
    rw [if_pos (⟨by norm_num, by norm_num, hs⟩ :
          (3 : ℤ) < 6 ∧ (7200 : ℚ) > 7000 ∧ speedX > 0)]
    norm_num
  · intro accel speedX ha
    rw [LearningDriver.auto_shift, if_neg (by decide : ¬(3 : ℤ) = -1)]
    rw [show upshift_rpm 3 = some 7000 from by decide,
        show downshift_rpm 3 = some 2500 from by decide]
    dsimp only
    rw [if_pos (⟨by norm_num, by norm_num⟩ : (3 : ℤ) > 1 ∧ (2400 : ℚ) < 2500)]
    rw [if_neg (fun hcon => absurd hcon.2.1 (by norm_num) :
          ¬((3 : ℤ) < 6 ∧ (2400 : ℚ) > 7000 ∧ speedX > 0))]
    rcases eq_or_lt_of_le ha with h | h
    · rw [← h]
      norm_num
    · rw [if_pos h]
      norm_num
  · intro rpm g hg
    rw [Driver.gearFormula]
    split
    · next h1 => obtain ⟨-, h2⟩ := h1; omega
    · next h1 =>
      clear h1
      split
      · next h2 => obtain ⟨-, h3⟩ := h2; omega
      · next h2 => clear h2; omega
  · intro rpm speedX accel g hg
    rw [LearningDriver.auto_shift, if_neg (by clear rpm speedX accel; omega : ¬g = -1)]
    rcases upshift_rpm g with _ | thr <;> rcases downshift_rpm g with _ | thr2 <;>
      (try dsimp only)
    · intro hc; clear * - hg hc; omega
    · split
      · next h2 =>
        obtain ⟨h3, -⟩ := h2
        (try dsimp only); intro hc; clear * - hg h3 hc; omega
      · next h2 => clear h2; (try dsimp only); intro hc; clear * - hg hc; omega
    · split
      · next h2 =>
        obtain ⟨h3, -⟩ := h2
        (try dsimp only); intro hc
        have hx : (g : ℤ) + 1 = -1 := hc
        clear * - hg h3 hx; omega
      · next h2 => clear h2; (try dsimp only); intro hc; clear * - hg hc; omega
    · split
      · next h2 =>
        obtain ⟨h3, -⟩ := h2
        split
        · next h4 =>
          obtain ⟨h5, -⟩ := h4
          (try dsimp only); intro hc
          have hx : (g : ℤ) + 1 - 1 = -1 := hc
          clear * - hg h3 h5 hx; omega
        · next h4 => clear h4; (try dsimp only); intro hc; clear * - hg h3 hc; omega
      · next h2 =>
        clear h2
        split
        · next h4 =>
          obtain ⟨h5, -⟩ := h4
          (try dsimp only); intro hc
          have hx : (g : ℤ) + 1 = -1 := hc
          clear * - hg h5 hx; omega
        · next h4 => clear h4; (try dsimp only); intro hc; clear * - hg hc; omega

/-- C5 counterexample: with the vehicle already in reverse (gear −1
reported by the simulator) and mid-range RPM, both gear formulas output
gear −1, so "never outputs reverse" fails as stated. -/
theorem claim_C5_counterexample :
    Driver.gearFormula 5000 (-1) = -1 ∧
    (LearningDriver.auto_shift (-1) 0 5000 0).1 = -1 := by
  constructor
  · rw [Driver.gearFormula]
    norm_num
  · rw [LearningDriver.auto_shift]
    norm_num

/-- C5 witness: the general clauses applied at the claim's numbers. -/
theorem claim_C5_gear_witness :
    Driver.gearFormula 7200 3 = 3 + 1 ∧ Driver.gearFormula 2400 3 = 3 - 1 ∧
    LearningDriver.auto_shift 3 (1/2) 2400 0 = (2, max (1/2 - 2/10) 0) ∧
    Driver.gearFormula 5000 2 ≠ -1 :=
  ⟨claim_C5_gear.1 7200 3 (by norm_num) (by norm_num),
   claim_C5_gear.2.1 2400 3 (by norm_num) (by norm_num),
   claim_C5_gear.2.2.2.2.2.2.1 (1/2) 0 (by norm_num),
   claim_C5_gear.2.2.2.2.2.2.2.1 5000 2 (by norm_num)⟩

/-- C6 (confirmed): with a positive step ceiling, the tick on which the
incremented step counter equals the ceiling sends exactly `"(meta 1)"` and
the policy is not consulted (the sent message ignores the drive function
and the received payload); with ceiling 0 the counter, always ≥ 1, never
equals it, so the drive output is always sent. -/
theorem claim_C6_step_ceiling :
    (∀ (s : ℕ) (driveFn : List Char → List Char) (buf : List Char),
        0 < s → racingTickMsg s s driveFn buf = "(meta 1)".data) ∧
    (∀ (prev : ℕ) (driveFn : List Char → List Char) (buf : List Char),
        racingTickMsg (prev + 1) 0 driveFn buf = driveFn buf) := by
  constructor
  · intro s driveFn buf _
    rw [racingTickMsg, if_neg (by omega)]
  · intro prev driveFn buf
    rw [racingTickMsg, if_pos (by omega)]

/-- C6 witness: ceiling 5 at tick 5 sends the literal abandon message. -/
theorem claim_C6_step_ceiling_witness :
    racingTickMsg 5 5 (fun _ => []) [] = "(meta 1)".data :=
  claim_C6_step_ceiling.1 5 (fun _ => []) [] (by norm_num)

/-- Auxiliary evaluation: decoding the concrete message `"(gear 3)"` into
any prior state yields the state with only the sensor dictionary and the
gear set — every other field is `none`. -/
theorem setFromMsg_gear3 (st : CarState) :
    CarState.setFromMsg st "(gear 3)".data =
      some { sensors := some [("gear".data, ["3".data])], gear := some 3 } := by
  have hp : parseAux "(gear 3)".data [] = some [("gear".data, ["3".data])] := by
    show parseAux ('(' :: ("gear 3".data ++ ')' :: [])) [] = _
    rw [parseAux_group _ _ _ (by decide)]
    rw [show splitWS "gear 3".data = ["gear".data, "3".data] from by decide]
    show parseAux [] (dictInsert [] "gear".data ("3".data :: [])) = _
    rw [parseAux_nil]
    decide
  unfold CarState.setFromMsg
  rw [hp]
  decide

/-- C7 (corrected): `setFromMsg` rebuilds every field from the new message
alone — the result does not depend on the prior state at all.  Fields whose
tags are present are updated, but a field whose tag is absent becomes the
distinguished unknown value `None` even when it held a value before. -/
theorem claim_C7_overwrite :
    (∀ (s1 s2 : CarState) (msg : List Char),
        CarState.setFromMsg s1 msg = CarState.setFromMsg s2 msg) ∧
    CarState.setFromMsg { angle := some 1 } "(gear 3)".data =
      some { sensors := some [("gear".data, ["3".data])], gear := some 3 } :=
  ⟨fun _ _ _ => rfl, setFromMsg_gear3 _⟩

/-- C7 counterexample: the prior state knows `angle = 1`; the message
`"(gear 3)"` carries no `angle` tag, yet after `setFromMsg` the angle is
`None` instead of the retained previous value the claim promises. -/
theorem claim_C7_counterexample :
    (CarState.setFromMsg { angle := some 1 } "(gear 3)".data).map CarState.angle =
      some none ∧
    ({ angle := some 1 : CarState }).angle = some 1 ∧
    (none : Option ℚ) ≠ some 1 := by
  refine ⟨?_, rfl, by decide⟩
  rw [setFromMsg_gear3]
  rfl

/-- C9 (corrected): `onRestart` clears the three moving-average history
windows and nothing else — the previous-RPM sample and the persistent
control object survive the restart. -/
theorem claim_C9_onRestart :
    (∀ st : LDState,
        (LearningDriver.onRestart st).histSpeedX = [] ∧
        (LearningDriver.onRestart st).histSpeedY = [] ∧
        (LearningDriver.onRestart st).histAngle = [] ∧
        (LearningDriver.onRestart st).prevRpm = st.prevRpm ∧
        (LearningDriver.onRestart st).control = st.control) ∧
    LearningDriver.onRestart LDState.fresh = LDState.fresh :=
  ⟨fun _ => ⟨rfl, rfl, rfl, rfl, rfl⟩, rfl⟩

/-- C9 counterexample: a restarted driver whose persistent control was left
in gear 3 downshifts to gear 2 on its next tick (RPM 2400), while a freshly
constructed driver given the same input stays in gear 1 — the next call
after `onRestart` is not the fresh first call the claim promises. -/
theorem claim_C9_counterexample :
    (LearningDriver.drive
        (LearningDriver.onRestart { prevRpm := 5000, control := { gear := 3 } })
        0 0 0 2400 (0, 0, 0)).2.gear = 2 ∧
    (LearningDriver.drive LDState.fresh 0 0 0 2400 (0, 0, 0)).2.gear = 1 ∧
    (2 : ℤ) ≠ 1 := by decide

/-- C10 (corrected): a malformed (unmatched-parenthesis) payload never makes
a tick be skipped with nothing sent: the rule-based stack lets the decode
exception escape and the client dies, while the learning stack catches it
and still sends a control message with steer, accel and brake zeroed. -/
theorem claim_C10_malformed_tick :
    (∀ (st : CarState) (c : CarControl) (msg : List Char),
        parseAux msg [] = none → ruleTick st c msg = TickOutcome.crashed) ∧
    (∀ (st : LDState) (cs : CarState) (msg : List Char) (preds : ℚ × ℚ × ℚ),
        parseAux msg [] = none →
          learningTick st cs msg preds =
            TickOutcome.sent { st.control with steer := 0, accel := 0, brake := 0 }) := by
  constructor
  · intro st c msg h
    unfold ruleTick Driver.drive CarState.setFromMsg
    rw [h]
    rfl
  · intro st cs msg preds h
    unfold learningTick LearningDriver.driveMsg CarState.setFromMsg
    rw [h]

/-- C10 witness: the theorem's two clauses at the unterminated payload
`"(angle 1.0"`. -/
theorem claim_C10_malformed_tick_witness :
    ruleTick {} {} "(angle 1.0".data = TickOutcome.crashed ∧
    learningTick { control := { gear := 2 } } {} "(angle 1.0".data (0, 0, 0) =
      TickOutcome.sent { ({ gear := 2 } : CarControl) with
                           steer := 0, accel := 0, brake := 0 } :=
  ⟨claim_C10_malformed_tick.1 {} {} _ (parseAux_unmatched _ _ (by decide)),
   claim_C10_malformed_tick.2 { control := { gear := 2 } } {} _ (0, 0, 0)
     (parseAux_unmatched _ _ (by decide))⟩

/-- C10 counterexample: on `"(angle 1.0"` the rule driver crashes the whole
client and the learning driver sends a zeroed control — the outcomes also
differ between the stacks, and neither is the claimed silent skip. -/
theorem claim_C10_counterexample :
    ruleTick {} {} "(angle 1.0".data = TickOutcome.crashed ∧
    learningTick LDState.fresh {} "(angle 1.0".data (0, 0, 0) =
      TickOutcome.sent { LDState.fresh.control with steer := 0, accel := 0, brake := 0 } ∧
    TickOutcome.crashed ≠
      TickOutcome.sent { LDState.fresh.control with steer := 0, accel := 0, brake := 0 } := by
  have h : parseAux "(angle 1.0".data [] = none :=
    parseAux_unmatched _ _ (by decide)
  refine ⟨?_, ?_, by decide⟩
  · unfold ruleTick Driver.drive CarState.setFromMsg
    rw [h]
    rfl
  · unfold learningTick LearningDriver.driveMsg CarState.setFromMsg
    rw [h]

/-- C3 (confirmed): in the Normal state with the session older than 5 s,
speed magnitude below 0.3 and the 5 s inter-recovery cooldown expired, the
drive step enters recovery and — within the same tick, through the
immediate self-call — emits gear −1, accel 0.3, brake 0 and the
angle-opposing steer (−0.5 above 0.5 rad, +0.5 below −0.5 rad, else 0). -/
theorem claim_C3_stuck_to_reversing (inner : CarControl → CarControl) (st : MDState)
    (t speed angle : ℚ) (ctrl : CarControl) (pred : Option (ℚ × ℚ × ℚ))
    (hm : st.use_model = true) (hr : st.in_recovery = false)
    (hp : st.in_post_recovery = false)
    (hs : t - st.session_start_time > 5) (hv : |speed| < 3/10)
    (hc : t - st.last_recovery_time > 5) :
    ModelDriver.drive inner st t speed angle ctrl pred =
      some ({ st with in_recovery := true, recovery_start_time := t },
            { inner (inner ctrl) with
                gear := -1, accel := 3/10, brake := 0,
                steer := (if angle > 1/2 then -(1/2 : ℚ)
                          else if angle < -(1/2 : ℚ) then 1/2 else 0) }) := by
  have hv' : speed < 3/10 := lt_of_abs_lt hv
  have h03 : ¬((t : ℚ) - t > 3) := by simp
  obtain ⟨um, ir, rst, ipr, prst, lrt, sst⟩ := st
  have hum : um = true := hm
  have hir : ir = false := hr
  have hipr : ipr = false := hp
  subst hum; subst hir; subst hipr
  dsimp only at hs hc ⊢
  simp [ModelDriver.drive, ModelDriver.driveFuel, hs, hv', hc,
        (by norm_num : ¬((3:ℚ) < 0))]

/-- C3 witness: a stalled car (speed 0) ten seconds into the session with no
prior recovery reverses on the spot. -/
theorem claim_C3_stuck_to_reversing_witness :
    ModelDriver.drive id { use_model := true } 10 0 0 {} none =
      some ({ ({ use_model := true } : MDState) with
                in_recovery := true, recovery_start_time := 10 },
            { id (id ({} : CarControl)) with
                gear := -1, accel := 3/10, brake := 0,
                steer := (if (0:ℚ) > 1/2 then -(1/2 : ℚ)
                          else if (0:ℚ) < -(1/2 : ℚ) then 1/2 else 0) }) :=
  claim_C3_stuck_to_reversing id { use_model := true } 10 0 0 {} none rfl rfl rfl
    (by norm_num : (10:ℚ) - 0 > 5) (by rw [abs_zero]; norm_num)
    (by norm_num : (10:ℚ) - 0 > 5)

/-- C4 (confirmed): the recovery exit ladder.  After more than 3 s of
reversing, the next call records the recovery end time, enters the
post-recovery phase and emits one tick of gear 1 / accel 0.1 / brake 0 /
steer 0; for the following 4 s every call emits gear 1 / accel 0.5 /
brake 0 with the state untouched; once the window has elapsed the wrapped
model's prediction resumes; and inside the 5 s cooldown measured from the
recovery end the state is returned unchanged, so reversing cannot
restart. -/
theorem claim_C4_recovery_phases :
    (∀ (inner : CarControl → CarControl) (st : MDState) (t speed angle : ℚ)
        (ctrl : CarControl) (pred : Option (ℚ × ℚ × ℚ)),
        st.use_model = true → st.in_post_recovery = false → st.in_recovery = true →
        t - st.recovery_start_time > 3 →
        ModelDriver.drive inner st t speed angle ctrl pred =
          some ({ st with in_recovery := false, last_recovery_time := t,
                          in_post_recovery := true, post_recovery_start_time := t },
                { inner ctrl with gear := 1, accel := 1/10, brake := 0, steer := 0 })) ∧
    (∀ (inner : CarControl → CarControl) (st : MDState) (t speed angle : ℚ)
        (ctrl : CarControl) (pred : Option (ℚ × ℚ × ℚ)),
        st.use_model = true → st.in_post_recovery = true →
        t - st.post_recovery_start_time < 4 →
        ModelDriver.drive inner st t speed angle ctrl pred =
          some (st, { inner ctrl with gear := 1, accel := 1/2, brake := 0 })) ∧
    (∀ (inner : CarControl → CarControl) (st : MDState) (t speed angle : ℚ)
        (ctrl : CarControl) (s a b : ℚ),
        st.use_model = true → st.in_post_recovery = true →
        ¬(t - st.post_recovery_start_time < 4) → st.in_recovery = false →
        t - st.last_recovery_time ≤ 5 →
        ModelDriver.drive inner st t speed angle ctrl (some (s, a, b)) =
          some ({ st with in_post_recovery := false },
                { inner ctrl with steer := s, accel := a, brake := b })) ∧
    (∀ (inner : CarControl → CarControl) (st : MDState) (t speed angle : ℚ)
        (ctrl : CarControl) (pred : Option (ℚ × ℚ × ℚ)),
        st.use_model = true → st.in_post_recovery = false → st.in_recovery = false →
        t - st.last_recovery_time ≤ 5 →
        ∃ c', ModelDriver.drive inner st t speed angle ctrl pred = some (st, c')) := by
  refine ⟨?_, ?_, ?_, ?_⟩
  · intro inner st t speed angle ctrl pred hm hp hr ht
    obtain ⟨um, ir, rst, ipr, prst, lrt, sst⟩ := st
    have hum : um = true := hm
    have hir : ir = true := hr
    have hipr : ipr = false := hp
    subst hum; subst hir; subst hipr
    dsimp only at ht
    simp [ModelDriver.drive, ModelDriver.driveFuel, ht]
  · intro inner st t speed angle ctrl pred hm hp ht
    obtain ⟨um, ir, rst, ipr, prst, lrt, sst⟩ := st
    have hum : um = true := hm
    have hipr : ipr = true := hp
    subst hum; subst hipr
    dsimp only at ht
    simp [ModelDriver.drive, ModelDriver.driveFuel, ht]
  · intro inner st t speed angle ctrl s a b hm hp ht hr hc
    obtain ⟨um, ir, rst, ipr, prst, lrt, sst⟩ := st
    have hum : um = true := hm
    have hipr : ipr = true := hp
    have hir : ir = false := hr
    subst hum; subst hipr; subst hir
    dsimp only at ht hc
    simp [ModelDriver.drive, ModelDriver.driveFuel, ht, not_lt.mpr hc]
  · intro inner st t speed angle ctrl pred hm hp hr hc
    obtain ⟨um, ir, rst, ipr, prst, lrt, sst⟩ := st
    have hum : um = true := hm
    have hipr : ipr = false := hp
    have hir : ir = false := hr
    subst hum; subst hipr; subst hir
    dsimp only at hc
    rcases pred with _ | ⟨s, a, b⟩
    · exact ⟨inner ctrl, by simp [ModelDriver.drive, ModelDriver.driveFuel, not_lt.mpr hc]⟩
    · exact ⟨{ inner ctrl with steer := s, accel := a, brake := b },
        by simp [ModelDriver.drive, ModelDriver.driveFuel, not_lt.mpr hc]⟩

/-- C4 witness: the four phases at concrete clock readings — recovery exit
at t = 4 after a recovery started at 0, the post-recovery hold at t = 1,
the model resuming at t = 4, and the in-cooldown Normal tick at t = 1. -/
theorem claim_C4_recovery_phases_witness :
    ModelDriver.drive id { use_model := true, in_recovery := true } 4 0 0 {} none =
      some ({ ({ use_model := true, in_recovery := true } : MDState) with
                in_recovery := false, last_recovery_time := 4,
                in_post_recovery := true, post_recovery_start_time := 4 },
            { id ({} : CarControl) with gear := 1, accel := 1/10, brake := 0, steer := 0 }) ∧
    ModelDriver.drive id { use_model := true, in_post_recovery := true } 1 0 0 {} none =
      some ({ use_model := true, in_post_recovery := true },
            { id ({} : CarControl) with gear := 1, accel := 1/2, brake := 0 }) ∧
    ModelDriver.drive id { use_model := true, in_post_recovery := true } 4 0 0 {}
        (some (0, 1, 0)) =
      some ({ ({ use_model := true, in_post_recovery := true } : MDState) with
                in_post_recovery := false },
            { id ({} : CarControl) with steer := 0, accel := 1, brake := 0 }) ∧
    ∃ c', ModelDriver.drive id { use_model := true } 1 0 0 {} none =
      some ({ use_model := true }, c') :=
  ⟨claim_C4_recovery_phases.1 id { use_model := true, in_recovery := true } 4 0 0 {} none
      rfl rfl rfl (by norm_num : (4:ℚ) - 0 > 3),
   claim_C4_recovery_phases.2.1 id { use_model := true, in_post_recovery := true } 1 0 0 {} none
      rfl rfl (by norm_num : (1:ℚ) - 0 < 4),
   claim_C4_recovery_phases.2.2.1 id { use_model := true, in_post_recovery := true } 4 0 0 {}
      0 1 0 rfl rfl (by norm_num : ¬((4:ℚ) - 0 < 4)) rfl (by norm_num : (4:ℚ) - 0 ≤ 5),
   claim_C4_recovery_phases.2.2.2 id { use_model := true } 1 0 0 {} none
      rfl rfl rfl (by norm_num : (1:ℚ) - 0 ≤ 5)⟩
